import Mathlib

/-!
Verification development for the statistics aggregation engine of the
flbb-statistics repository (`utils.py`).

The embedding models one game per row.  A `GameRow` carries the scalar
columns used by the aggregations (`GameId`, team names, final scores,
division, date) together with the three nested columns (`Teams`,
`GameEvents`, `Referres`) that the source stores as Python-literal strings
and decodes with `ast.literal_eval` inside a `try/except`.

Numeric columns are modelled as `Int` (final scores, per-player counting
stats) and `ℚ` (derived averages).  A game row in this model always carries
final scores, matching the completed games the claims quantify over.

The source's pandas `sort_values`/`nlargest`/`head` pipeline is modelled
with `List.insertionSort` (a stable sort, as pandas' multi-key lexsort and
`nlargest(keep=first)` are) followed by `List.take`.
-/

/-- Decode result of a nested column.  The source accesses such a column with
`if isinstance(x, str): ast.literal_eval(x) else: x` inside `try/except`, and
afterwards checks `isinstance(result, list)`.
* `strOk items`: the column held a string that decoded to a list;
* `strNotList`: the column held a string that decoded, but not to a list;
* `strBad`: the column held a string on which `ast.literal_eval` raised;
* `natList items`: the column already held a native list;
* `natNotList`: the column held some other native (non-list, non-string) value. -/
inductive NestedField (α : Type) where
  | strOk (items : List α)
  | strNotList
  | strBad
  | natList (items : List α)
  | natNotList
deriving DecidableEq, Repr

/-- Result of the source's decode-to-list pattern: `some items` when the game
contributes a list (either branch of the `isinstance(x, str)` test followed by
an `isinstance(result, list)` check), `none` when the game is skipped
(`except: continue` or the non-list check). -/
def NestedField.decodeList : NestedField α → Option (List α)
  | .strOk items => some items
  | .natList items => some items
  | _ => none

/-- Value of the `'Starting Five'` key of a raw player dict: either a Python
string or a Python boolean.  (The source compares it with `== 'true'`, under
which a Python `bool` is never equal to a string.) -/
inductive SFValue where
  | str (s : String)
  | boolVal (b : Bool)
deriving DecidableEq, Repr

/-- Raw per-player dict nested inside a roster entry.  `none` fields model
absent keys; the source reads every field with `player.get(key, default)`. -/
structure RawPlayer where
  playerName : Option String
  playerNumber : Option Int
  totalPoints : Option Int
  onePMadeShots : Option Int
  twoPMadeShots : Option Int
  threePMadeShots : Option Int
  totalFouls : Option Int
  pFouls : Option Int
  p1Fouls : Option Int
  p2Fouls : Option Int
  p3Fouls : Option Int
  startingFive : Option SFValue
deriving DecidableEq, Repr

/-- Raw roster entry (one team inside a game's `Teams` column).  `players =
none` models a dict without a `'Players'` key (skipped by the source);
list entries of `none` model non-dict player entries (also skipped). -/
structure RawTeam where
  teamName : Option String
  teamNameShort : Option String
  players : Option (List (Option RawPlayer))
deriving DecidableEq, Repr

/-- Raw timeline event inside a game's `GameEvents` column.  Both keys are
optional; the source reads `event.get('EventAdvantage')` and checks
`'EventAction' in event`. -/
structure RawEvent where
  eventAdvantage : Option Int
  eventAction : Option String
deriving DecidableEq, Repr

/-- One game row of the dataset.  Scalar columns are the ones the
aggregations read; the three nested columns are `NestedField`s whose list
entries are `Option`s (`none` models a non-dict entry, skipped by the
source; for a referee entry, also a dict without a `'Referee Name'` key). -/
structure GameRow where
  GameId : String
  DateTime : String
  HomeTeamName : String
  AwayTeamName : String
  GameDivisionDisplay : String
  FinalHomeScore : Int
  FinalAwayScore : Int
  Teams : NestedField (Option RawTeam)
  GameEvents : NestedField (Option RawEvent)
  Referres : NestedField (Option String)
deriving DecidableEq, Repr

/-! ## StandingsCalculator (`calculate_standings`, utils.py lines 60-101) -/

/-- Per-team accumulator of `calculate_standings`: the defaultdict value
`{'Games': 0, 'W': 0, 'L': 0, 'F': 0, 'A': 0, 'Points': 0}`. -/
structure TeamStats where
  games : Int
  w : Int
  l : Int
  f : Int
  a : Int
  points : Int
deriving DecidableEq, Repr

/-- Default value inserted by the defaultdict on first access. -/
def zeroStats : TeamStats := ⟨0, 0, 0, 0, 0, 0⟩

/-- Model of `standings[team][field] += v` on the insertion-ordered
defaultdict: update the (unique) existing entry in place, or append a fresh
entry initialised with the zero default. -/
def bump : List (String × TeamStats) → String → (TeamStats → TeamStats) →
    List (String × TeamStats)
  | [], t, upd => [(t, upd zeroStats)]
  | p :: rest, t, upd =>
      if p.1 = t then (p.1, upd p.2) :: rest else p :: bump rest t upd

/-- Value associated with a team in the standings dict (the first — in a
dict, unique — entry with that key), or the defaultdict zero when the team
has no entry yet. -/
def lookupStats : List (String × TeamStats) → String → TeamStats
  | [], _ => zeroStats
  | p :: rest, t => if p.1 = t then p.2 else lookupStats rest t

/-- Body of the `for _, row in df.iterrows()` loop of `calculate_standings`
(utils.py lines 65-89), one source statement per `bump`. -/
def stepGame (acc : List (String × TeamStats)) (g : GameRow) :
    List (String × TeamStats) :=
  let home_team := g.HomeTeamName
  let away_team := g.AwayTeamName
  let home_score := g.FinalHomeScore
  let away_score := g.FinalAwayScore
  let acc := bump acc home_team (fun s => { s with games := s.games + 1 })
  let acc := bump acc away_team (fun s => { s with games := s.games + 1 })
  let acc := bump acc home_team (fun s => { s with f := s.f + home_score })
  let acc := bump acc away_team (fun s => { s with f := s.f + away_score })
  let acc := bump acc home_team (fun s => { s with a := s.a + away_score })
  let acc := bump acc away_team (fun s => { s with a := s.a + home_score })
  if home_score > away_score then
    -- Home team wins
    let acc := bump acc home_team (fun s => { s with w := s.w + 1 })
    let acc := bump acc away_team (fun s => { s with l := s.l + 1 })
    let acc := bump acc home_team (fun s => { s with points := s.points + 2 })
    bump acc away_team (fun s => { s with points := s.points + 1 })
  else
    -- Away team wins
    let acc := bump acc home_team (fun s => { s with l := s.l + 1 })
    let acc := bump acc away_team (fun s => { s with w := s.w + 1 })
    let acc := bump acc home_team (fun s => { s with points := s.points + 1 })
    bump acc away_team (fun s => { s with points := s.points + 2 })

/-- One row of the standings table (`Team Name`, `Games`, `W`, `L`, `F`,
`A`, `Points`, `Points Diff`); the rank is the position in the list. -/
structure StandingRow where
  teamName : String
  Games : Int
  W : Int
  L : Int
  F : Int
  A : Int
  Points : Int
  PointsDiff : Int
deriving DecidableEq, Repr

/-- Conversion of one standings-dict entry to an output row, including the
derived column `Points Diff = F - A`. -/
def mkStandingRow (p : String × TeamStats) : StandingRow :=
  { teamName := p.1, Games := p.2.games, W := p.2.w, L := p.2.l,
    F := p.2.f, A := p.2.a, Points := p.2.points,
    PointsDiff := p.2.f - p.2.a }

/-- Sort relation of `sort_values(by=['Points', 'Points Diff'],
ascending=[False, False])`: `a` may precede `b` iff `(a.Points,
a.PointsDiff)` is lexicographically at least `(b.Points, b.PointsDiff)`. -/
def standingsOrder (a b : StandingRow) : Prop :=
  b.Points < a.Points ∨ (a.Points = b.Points ∧ b.PointsDiff ≤ a.PointsDiff)

instance : DecidableRel standingsOrder := fun a b =>
  inferInstanceAs
    (Decidable (b.Points < a.Points ∨ (a.Points = b.Points ∧ b.PointsDiff ≤ a.PointsDiff)))

instance : IsTotal StandingRow standingsOrder :=
  ⟨by intro a b; unfold standingsOrder; omega⟩

instance : IsTrans StandingRow standingsOrder :=
  ⟨by intro a b c; unfold standingsOrder; omega⟩

/-- Model of `calculate_standings` (utils.py lines 60-101).  The per-game
accumulation is `stepGame`; afterwards the source builds
`pd.DataFrame.from_dict(standings, orient='index')` — whose columns are the
six stat keys when the dict is nonempty and which has NO columns when the
dict is empty — and then evaluates `standings_df['F'] - standings_df['A']`.
On an empty dict that column access raises `KeyError`, modelled here as
`Except.error`.  Otherwise the rows are sorted by `Points` then
`Points Diff`, both descending (pandas' multi-key sort is stable). -/
def calculate_standings (df : List GameRow) : Except String (List StandingRow) :=
  let standings := df.foldl stepGame []
  match standings with
  | [] => Except.error "KeyError"
  | _ => Except.ok ((standings.map mkStandingRow).insertionSort standingsOrder)

/-! ## PlayerStatsExtractor (`extract_all_player_stats`, utils.py lines 164-226) -/

/-- One row of the player-game fact table produced by
`extract_all_player_stats`. -/
structure PlayerFact where
  GameId : String
  GameDate : String
  PlayerName : String
  PlayerNumber : Int
  Team : String
  TotalPoints : Int
  onePMadeShots : Int
  twoPMadeShots : Int
  threePMadeShots : Int
  TotalFouls : Int
  pFouls : Int
  p1Fouls : Int
  p2Fouls : Int
  p3Fouls : Int
  StartingFive : Bool
deriving DecidableEq, Repr

/-- Model of `player.get('Starting Five', 'false') == 'true'` (utils.py line
222): a Python string compares equal to `'true'` exactly when it is that
string; a Python `bool` is never `==` to a string; an absent key yields the
default `'false'`, which is not `'true'`. -/
def startingFiveOfField : Option SFValue → Bool
  | some (.str s) => s = "true"
  | some (.boolVal _) => false
  | none => false

/-- Team display name: `team.get('Team Name', team.get('Team Name Short',
'Unknown'))` (utils.py line 201). -/
def teamDisplayName (t : RawTeam) : String :=
  t.teamName.getD (t.teamNameShort.getD "Unknown")

/-- The `player_record` dict built for one player (utils.py lines 207-223),
with each missing field defaulted as in the source. -/
def playerRecord (gid gdate team_name : String) (p : RawPlayer) : PlayerFact :=
  { GameId := gid
    GameDate := gdate
    PlayerName := p.playerName.getD "Unknown"
    PlayerNumber := p.playerNumber.getD 0
    Team := team_name
    TotalPoints := p.totalPoints.getD 0
    onePMadeShots := p.onePMadeShots.getD 0
    twoPMadeShots := p.twoPMadeShots.getD 0
    threePMadeShots := p.threePMadeShots.getD 0
    TotalFouls := p.totalFouls.getD 0
    pFouls := p.pFouls.getD 0
    p1Fouls := p.p1Fouls.getD 0
    p2Fouls := p.p2Fouls.getD 0
    p3Fouls := p.p3Fouls.getD 0
    StartingFive := startingFiveOfField p.startingFive }

/-- Fact rows contributed by one roster entry: a non-dict entry or a dict
without a `'Players'` key contributes nothing; non-dict player entries are
skipped. -/
def teamRecords (gid gdate : String) : Option RawTeam → List PlayerFact
  | none => []
  | some t =>
    match t.players with
    | none => []
    | some ps => ps.filterMap (fun p? => p?.map (playerRecord gid gdate (teamDisplayName t)))

/-- Fact rows contributed by one game: a `Teams` column that fails to decode
to a list (`except: continue`, or the `isinstance(teams_data, list)` check)
contributes nothing. -/
def gamePlayerRecords (g : GameRow) : List PlayerFact :=
  match g.Teams.decodeList with
  | none => []
  | some teams => teams.flatMap (teamRecords g.GameId g.DateTime)

/-- Model of `extract_all_player_stats` (utils.py lines 164-226): the fact
rows of all games in order.  The function is total: a malformed roster never
raises, it just contributes no rows (and `data = []` gives the source's
`data.empty` early return of an empty table). -/
def extract_all_player_stats (data : List GameRow) : List PlayerFact :=
  data.flatMap gamePlayerRecords

/-! ## AggregationEngine: top scorers (`get_top_scorers`, utils.py lines 228-257) -/

/-- Group key of `groupby(['PlayerName', 'Team'])`. -/
def scorerKey (f : PlayerFact) : String × String :=
  (f.PlayerName, f.Team)

/-- Ascending lexicographic order on group keys: pandas `groupby` with the
default `sort=True` emits the groups sorted by key. -/
def keyOrder (a b : String × String) : Prop :=
  a.1 < b.1 ∨ (a.1 = b.1 ∧ a.2 ≤ b.2)

instance : DecidableRel keyOrder := fun a b =>
  inferInstanceAs (Decidable (a.1 < b.1 ∨ (a.1 = b.1 ∧ a.2 ≤ b.2)))

/-- The distinct group keys of a fact table, in the sorted order pandas
`groupby(sort=True)` produces them. -/
def groupKeys (facts : List PlayerFact) : List (String × String) :=
  ((facts.map scorerKey).dedup).insertionSort keyOrder

/-- Rows of the group with key `k`, in original table order (pandas groups
preserve the row order of the input within each group). -/
def groupRows (facts : List PlayerFact) (k : String × String) : List PlayerFact :=
  facts.filter (fun f => scorerKey f = k)

/-- Round-half-to-even on ℚ, the rounding numpy/pandas `.round()` uses. -/
def pandasRound (q : ℚ) : Int :=
  let fl := ⌊q⌋
  let frac := q - fl
  if frac < 1/2 then fl
  else if 1/2 < frac then fl + 1
  else if fl % 2 = 0 then fl else fl + 1

/-- Model of `.round(1)`. -/
def round1 (q : ℚ) : ℚ :=
  (pandasRound (q * 10) : ℚ) / 10

/-- Model of `.round(2)`. -/
def round2 (q : ℚ) : ℚ :=
  (pandasRound (q * 100) : ℚ) / 100

/-- One row of the `get_top_scorers` aggregation result. -/
structure ScorerRow where
  PlayerName : String
  Team : String
  TotalPoints : Int
  onePMadeShots : Int
  twoPMadeShots : Int
  threePMadeShots : Int
  GamesPlayed : Nat
  AvgPointsPerGame : ℚ
deriving DecidableEq, Repr

/-- Aggregated row for one `(PlayerName, Team)` group: sums of the shot
columns, `GameId: 'count'` as games played, and the derived
`AvgPointsPerGame` (utils.py lines 245-254). -/
def mkScorerRow (facts : List PlayerFact) (k : String × String) : ScorerRow :=
  let group := groupRows facts k
  let totalPoints := (group.map (·.TotalPoints)).sum
  { PlayerName := k.1
    Team := k.2
    TotalPoints := totalPoints
    onePMadeShots := (group.map (·.onePMadeShots)).sum
    twoPMadeShots := (group.map (·.twoPMadeShots)).sum
    threePMadeShots := (group.map (·.threePMadeShots)).sum
    GamesPlayed := group.length
    AvgPointsPerGame := round1 ((totalPoints : ℚ) / (group.length : ℚ)) }

/-- Descending order on `TotalPoints` used by
`sort_values('TotalPoints', ascending=False)`. -/
def scorerOrder (a b : ScorerRow) : Prop :=
  b.TotalPoints ≤ a.TotalPoints

instance : DecidableRel scorerOrder := fun a b =>
  inferInstanceAs (Decidable (b.TotalPoints ≤ a.TotalPoints))

/-- The full scorer ranking (`get_top_scorers` before its `head(top_n)`
truncation): one aggregated row per group, sorted by total points
descending. -/
def scorerRanking (data : List GameRow) : List ScorerRow :=
  let player_stats := extract_all_player_stats data
  ((groupKeys player_stats).map (mkScorerRow player_stats)).insertionSort scorerOrder

/-- Model of `get_top_scorers` (utils.py lines 228-257): the ranking
truncated with `head(top_n)`. -/
def get_top_scorers (data : List GameRow) (top_n : Nat := 20) : List ScorerRow :=
  (scorerRanking data).take top_n

/-! ## GameEventAnalyzer (`analyze_game_events`, utils.py lines 740-834) -/

/-- The side currently leading, as tracked by the event replay. -/
inductive Leader where
  | home
  | away
deriving DecidableEq, Repr

/-- Mutable state of the score-progression loop (utils.py lines 776-781). -/
structure EvState where
  tie_count : Nat
  lead_changes : Nat
  max_home_lead : Int
  max_away_lead : Int
  current_advantage : Int
  previous_leader : Option Leader
deriving DecidableEq, Repr

/-- Initial loop state: all counters zero, no previous leader. -/
def initEventState : EvState :=
  { tie_count := 0, lead_changes := 0, max_home_lead := 0,
    max_away_lead := 0, current_advantage := 0, previous_leader := none }

/-- Advantage value an event carries, if any (`event.get('EventAdvantage')`;
a non-dict event carries none). -/
def advOf : Option RawEvent → Option Int
  | none => none
  | some ev => ev.eventAdvantage

/-- Leader an event designates: `home` for a positive advantage, `away` for
a negative one, none for a zero advantage or when the event carries no
advantage value. -/
def leaderOf (e : Option RawEvent) : Option Leader :=
  match advOf e with
  | none => none
  | some a => if a > 0 then some .home else if a < 0 then some .away else none

/-- Body of the event-replay loop (utils.py lines 783-811), one source
statement per step: skip non-dict events, record the advantage, count ties
at advantage exactly zero, track the maximum home/away leads, count a lead
change when the current leader is non-none and differs from a non-none
previous leader, and update the previous leader only when the current
leader is non-none. -/
def stepEvent (s : EvState) (e : Option RawEvent) : EvState :=
  match e with
  | none => s
  | some ev =>
    match ev.eventAdvantage with
    | none => s
    | some advantage =>
      let s := { s with current_advantage := advantage }
      let s := if advantage = 0 then { s with tie_count := s.tie_count + 1 } else s
      let p :=
        if advantage > 0 then
          ({ s with max_home_lead := max s.max_home_lead advantage }, some Leader.home)
        else if advantage < 0 then
          ({ s with max_away_lead := max s.max_away_lead |advantage| }, some Leader.away)
        else (s, (none : Option Leader))
      let s := p.1
      let current_leader := p.2
      let s :=
        if s.previous_leader ≠ none ∧ current_leader ≠ s.previous_leader ∧ current_leader ≠ none
        then { s with lead_changes := s.lead_changes + 1 } else s
      if current_leader ≠ none then { s with previous_leader := current_leader } else s

/-- One row of the `analyze_game_events` result. -/
structure GameAnalysis where
  GameId : String
  HomeTeam : String
  AwayTeam : String
  FinalHomeScore : Int
  FinalAwayScore : Int
  TieScores : Nat
  LeadChanges : Nat
  MaxHomeLead : Int
  MaxAwayLead : Int
  BiggestLead : Int
  WinMargin : Int
  Winner : String
deriving DecidableEq, Repr

/-- Analysis of one game (utils.py lines 755-832): decode the event list
(`[]` on any failure), replay it, then derive the win margin as the
absolute final-score difference and the winner as the home team exactly
when its final score is strictly larger. -/
def analyzeGame (g : GameRow) : GameAnalysis :=
  let events_data := (g.GameEvents.decodeList).getD []
  let st := events_data.foldl stepEvent initEventState
  { GameId := g.GameId
    HomeTeam := g.HomeTeamName
    AwayTeam := g.AwayTeamName
    FinalHomeScore := g.FinalHomeScore
    FinalAwayScore := g.FinalAwayScore
    TieScores := st.tie_count
    LeadChanges := st.lead_changes
    MaxHomeLead := st.max_home_lead
    MaxAwayLead := st.max_away_lead
    BiggestLead := max st.max_home_lead st.max_away_lead
    WinMargin := |g.FinalHomeScore - g.FinalAwayScore|
    Winner := if g.FinalHomeScore > g.FinalAwayScore then g.HomeTeamName else g.AwayTeamName }

/-- Model of `analyze_game_events` (utils.py lines 740-834): one analysis
row per game, in input order. -/
def analyze_game_events (data : List GameRow) : List GameAnalysis :=
  data.map analyzeGame

/-- Descending order on `WinMargin` used by `nlargest(top_n, 'WinMargin')`
(ties kept in input order, `keep='first'`). -/
def winMarginOrder (a b : GameAnalysis) : Prop :=
  b.WinMargin ≤ a.WinMargin

instance : DecidableRel winMarginOrder := fun a b =>
  inferInstanceAs (Decidable (b.WinMargin ≤ a.WinMargin))

/-- The full biggest-wins ranking (`get_biggest_wins` without truncation). -/
def biggestWinsRanking (data : List GameRow) : List GameAnalysis :=
  (analyze_game_events data).insertionSort winMarginOrder

/-- Model of `get_biggest_wins` (utils.py lines 890-906). -/
def get_biggest_wins (data : List GameRow) (top_n : Nat := 10) : List GameAnalysis :=
  (biggestWinsRanking data).take top_n

/-! ## `get_highest_scoring_games` (utils.py lines 599-614) -/

/-- One row of the `get_highest_scoring_games` result (the selected columns
plus the derived `TotalScore`). -/
structure HighScoreRow where
  GameId : String
  HomeTeamName : String
  AwayTeamName : String
  FinalHomeScore : Int
  FinalAwayScore : Int
  TotalScore : Int
  GameDivisionDisplay : String
deriving DecidableEq, Repr

/-- Row with the derived column `TotalScore = FinalHomeScore +
FinalAwayScore`. -/
def mkHighScoreRow (g : GameRow) : HighScoreRow :=
  { GameId := g.GameId, HomeTeamName := g.HomeTeamName,
    AwayTeamName := g.AwayTeamName, FinalHomeScore := g.FinalHomeScore,
    FinalAwayScore := g.FinalAwayScore,
    TotalScore := g.FinalHomeScore + g.FinalAwayScore,
    GameDivisionDisplay := g.GameDivisionDisplay }

/-- Descending order on `TotalScore` used by `nlargest`. -/
def totalScoreOrder (a b : HighScoreRow) : Prop :=
  b.TotalScore ≤ a.TotalScore

instance : DecidableRel totalScoreOrder := fun a b =>
  inferInstanceAs (Decidable (b.TotalScore ≤ a.TotalScore))

/-- Model of `get_highest_scoring_games` (utils.py lines 599-614) on a
row-modelled dataset: add the `TotalScore` column, take the `top_n` largest,
and select the report columns.  (The row model carries every column, so the
`KeyError` raised by the source on a dataset missing the score columns is
outside this model; `calculate_standings` below exhibits the raising case.) -/
def get_highest_scoring_games (data : List GameRow) (top_n : Nat := 10) :
    List HighScoreRow :=
  ((data.map mkHighScoreRow).insertionSort totalScoreOrder).take top_n

/-! ## Referee extraction (`extract_referee_stats`, utils.py lines 616-673) -/

/-- One row of the referee-game fact table. -/
structure RefereeGameFact where
  RefereeName : String
  GameId : String
  FoulsCalledInGame : Nat
  GamesRefereed : Nat
deriving DecidableEq, Repr

/-- Check whether `needle` occurs as a contiguous run inside `hay` — the
Python `needle in haystack` substring test. -/
def charsHaveSub (needle hay : List Char) : Bool :=
  match hay with
  | [] => needle.isEmpty
  | _ :: rest => needle.isPrefixOf hay || charsHaveSub needle rest

/-- Python substring membership `needle in hay` on strings. -/
def strHasSub (needle hay : String) : Bool :=
  charsHaveSub needle.toList hay.toList

/-- Count of foul events in a decoded event list: events that are dicts with
an `'EventAction'` key whose value contains `'Foul Added'` (utils.py lines
655-658). -/
def countFoulEvents (items : List (Option RawEvent)) : Nat :=
  items.countP (fun e? =>
    match e? with
    | some ev =>
      match ev.eventAction with
      | some act => strHasSub "Foul Added" act
      | none => false
    | none => false)

/-- Total fouls attributed to a game by `extract_referee_stats` (utils.py
lines 648-660).  The source counts only inside `if isinstance(game['GameEvents'],
str)`: a native event list is never counted, and a string that fails to
decode to a list leaves the count at zero (the `except: pass`, or iterating
a non-list which contributes no dict events). -/
def refFoulCount : NestedField (Option RawEvent) → Nat
  | .strOk items => countFoulEvents items
  | _ => 0

/-- Referee fact rows contributed by one game (utils.py lines 631-671): skip
games whose `Referres` column does not decode to a list; emit one record per
dict entry carrying a `'Referee Name'`, each with the same game-wide foul
count. -/
def refGameRecords (g : GameRow) : List RefereeGameFact :=
  match g.Referres.decodeList with
  | none => []
  | some refs =>
    refs.filterMap (fun r? =>
      r?.map (fun name =>
        { RefereeName := name
          GameId := g.GameId
          FoulsCalledInGame := refFoulCount g.GameEvents
          GamesRefereed := 1 }))

/-- Model of `extract_referee_stats` (utils.py lines 616-673). -/
def extract_referee_stats (data : List GameRow) : List RefereeGameFact :=
  data.flatMap refGameRecords

/-! ## Consistency ranking (`get_consistent_scorers`, utils.py lines 405-443)

The source works with float series; the only genuinely real-valued step is
the square root inside `points.std()`.  The development is therefore
parametrised by the square-root function `sq : ℚ → ℚ`; every theorem below
holds for an arbitrary `sq` (assuming only `sq 0 = 0` where the source
relies on the square root of zero variance being zero). -/

/-- Mean of a series, `points.mean()`. -/
def seriesMean (xs : List ℚ) : ℚ :=
  xs.sum / (xs.length : ℚ)

/-- Sample variance with the pandas default `ddof=1` denominator `n - 1`. -/
def sampleVariance (xs : List ℚ) : ℚ :=
  (xs.map (fun x => (x - seriesMean xs) ^ 2)).sum / ((xs.length : ℚ) - 1)

/-- Pandas `Series.std()` (default `ddof=1`): `NaN` — modelled as `none` —
for a series of length at most one, otherwise the square root of the sample
variance. -/
def pandasStd (sq : ℚ → ℚ) (xs : List ℚ) : Option ℚ :=
  if xs.length ≤ 1 then none else some (sq (sampleVariance xs))

/-- The consistency score `(points.mean() / (points.std() + 0.1)).round(2)`
(utils.py line 436).  A `NaN` standard deviation propagates to a `NaN`
score, modelled as `none`. -/
def consistencyScore (sq : ℚ → ℚ) (xs : List ℚ) : Option ℚ :=
  (pandasStd sq xs).map (fun sd => round2 (seriesMean xs / (sd + 1/10)))

/-- One row of the `get_consistent_scorers` result. -/
structure ConsistencyRow where
  PlayerName : String
  Team : String
  GamesPlayed : Nat
  AvgPoints : ℚ
  StdDevPoints : Option ℚ
  MinPoints : Option ℚ
  MaxPoints : Option ℚ
  ConsistencyScore : Option ℚ
deriving DecidableEq, Repr

/-- The points series of a group, as rationals. -/
def groupPoints (group : List PlayerFact) : List ℚ :=
  group.map (fun f => (f.TotalPoints : ℚ))

/-- The consistency row built for one qualifying group (utils.py lines
427-437). -/
def mkConsistencyRow (sq : ℚ → ℚ) (facts : List PlayerFact) (k : String × String) :
    ConsistencyRow :=
  let group := groupRows facts k
  let points := groupPoints group
  { PlayerName := k.1
    Team := k.2
    GamesPlayed := group.length
    AvgPoints := round1 (seriesMean points)
    StdDevPoints := (pandasStd sq points).map round1
    MinPoints := points.min?
    MaxPoints := points.max?
    ConsistencyScore := consistencyScore sq points }

/-- Descending order on the (possibly `NaN`) consistency score; pandas
`sort_values(ascending=False)` places `NaN` last. -/
def consOrder (a b : ConsistencyRow) : Prop :=
  match a.ConsistencyScore, b.ConsistencyScore with
  | some x, some y => y ≤ x
  | some _, none => True
  | none, some _ => False
  | none, none => True

instance : DecidableRel consOrder := fun a b =>
  match ha : a.ConsistencyScore, hb : b.ConsistencyScore with
  | some x, some y => by
      unfold consOrder
      rw [ha, hb]
      exact inferInstanceAs (Decidable (y ≤ x))
  | some x, none => by
      unfold consOrder
      rw [ha, hb]
      exact inferInstanceAs (Decidable True)
  | none, some y => by
      unfold consOrder
      rw [ha, hb]
      exact inferInstanceAs (Decidable False)
  | none, none => by
      unfold consOrder
      rw [ha, hb]
      exact inferInstanceAs (Decidable True)

/-- Model of `get_consistent_scorers` (utils.py lines 405-443): group the
fact table by `(PlayerName, Team)`, keep only groups with at least
`min_games` rows, build the consistency metrics for each, sort by
consistency score descending and keep the first 20. -/
def get_consistent_scorers (sq : ℚ → ℚ) (data : List GameRow)
    (min_games : Nat := 5) : List ConsistencyRow :=
  let player_stats := extract_all_player_stats data
  let consistency_stats :=
    (groupKeys player_stats).filterMap (fun k =>
      if min_games ≤ (groupRows player_stats k).length
      then some (mkConsistencyRow sq player_stats k) else none)
  (consistency_stats.insertionSort consOrder).take 20

/-! ## Concrete sample data used to instantiate the theorems -/

/-- A completed game the home side wins 60-55, with empty nested columns. -/
def gHome : GameRow :=
  { GameId := "G1", DateTime := "2024-01-01", HomeTeamName := "H", AwayTeamName := "A",
    GameDivisionDisplay := "D1", FinalHomeScore := 60, FinalAwayScore := 55,
    Teams := .natList [], GameEvents := .natList [], Referres := .natList [] }

/-- A completed game the away side wins 70-40. -/
def gAway : GameRow :=
  { gHome with GameId := "G2", FinalHomeScore := 40, FinalAwayScore := 70 }

/-- The standings table of the two sample games. -/
def exStandings : List StandingRow :=
  [StandingRow.mk "A" 2 1 1 125 100 3 25, StandingRow.mk "H" 2 1 1 100 125 3 (-25)]

/-- A roster player appearing in exactly one game, flagged as a starter with
the exact string value the source compares against. -/
def soloPlayer : RawPlayer :=
  { playerName := some "Solo", playerNumber := some 7, totalPoints := some 10,
    onePMadeShots := some 1, twoPMadeShots := some 3, threePMadeShots := some 1,
    totalFouls := some 2, pFouls := none, p1Fouls := none, p2Fouls := none,
    p3Fouls := none, startingFive := some (.str "true") }

/-- Roster entry holding the single sample player. -/
def soloTeam : RawTeam :=
  { teamName := some "T", teamNameShort := none, players := some [some soloPlayer] }

/-- A game whose roster decodes to the single sample team. -/
def gSolo : GameRow :=
  { gHome with GameId := "G3", Teams := .natList [some soloTeam] }

/-- A timeline event carrying only an advantage value. -/
def advEv (a : Int) : Option RawEvent := some (RawEvent.mk (some a) none)

/-- A foul event (its action label contains the `'Foul Added'` marker). -/
def foulEv : Option RawEvent := some (RawEvent.mk (some 1) (some "P1 Foul Added y"))

/-- A game with a decoded event timeline and two listed referees. -/
def gEvents : GameRow :=
  { gHome with
    GameId := "G4"
    GameEvents := .strOk [advEv 0, advEv 2, advEv (-1), none,
      some (RawEvent.mk none (some "x")), advEv 0, advEv 3, foulEv]
    Referres := .strOk [some "R1", some "R2", none] }

/-- Sum of one stat field over all entries of the standings dict (used to
state the games/wins/losses bookkeeping invariants). -/
def sumBy (acc : List (String × TeamStats)) (fld : TeamStats → Int) : Int :=
  (acc.map (fun p => fld p.2)).sum

/-! ## Helper lemmas about the standings accumulator -/

theorem lookup_bump (acc : List (String × TeamStats)) (t : String)
    (upd : TeamStats → TeamStats) (q : String) :
    lookupStats (bump acc t upd) q =
      if q = t then upd (lookupStats acc q) else lookupStats acc q := by
  induction acc with
  | nil =>
    by_cases h : q = t
    · subst h; simp [bump, lookupStats]
    · simp [bump, lookupStats, h, Ne.symm h]
  | cons p rest ih =>
    by_cases hq : q = t
    · subst hq
      by_cases hpq : p.1 = q
      · simp [bump, lookupStats, hpq]
      · simp [bump, lookupStats, hpq, ih]
    · by_cases hpt : p.1 = t
      · have hpq : ¬ p.1 = q := fun hh => hq (hh.symm.trans hpt)
        simp [bump, lookupStats, hpt, hpq, hq, Ne.symm hq]
      · by_cases hpq : p.1 = q
        · simp [bump, lookupStats, hpt, hpq, hq]
        · simp [bump, lookupStats, hpt, hpq, hq, ih]

theorem keys_bump (acc : List (String × TeamStats)) (t : String)
    (upd : TeamStats → TeamStats) :
    (t ∈ acc.map Prod.fst ∧ (bump acc t upd).map Prod.fst = acc.map Prod.fst)
    ∨ (t ∉ acc.map Prod.fst ∧
        (bump acc t upd).map Prod.fst = acc.map Prod.fst ++ [t]) := by
  induction acc with
  | nil => right; simp [bump]
  | cons p rest ih =>
    by_cases hpt : p.1 = t
    · left
      constructor
      · simp [hpt.symm]
      · simp [bump, hpt]
    · rcases ih with ⟨hin, heq⟩ | ⟨hnin, heq⟩
      · left
        constructor
        · simp [hin]
        · simp [bump, hpt, heq]
      · right
        constructor
        · simp only [List.map_cons, List.mem_cons, not_or]
          exact ⟨fun hh => hpt hh.symm, hnin⟩
        · simp [bump, hpt, heq]

theorem nodup_bump (acc : List (String × TeamStats)) (t : String)
    (upd : TeamStats → TeamStats) (hnd : (acc.map Prod.fst).Nodup) :
    ((bump acc t upd).map Prod.fst).Nodup := by
  rcases keys_bump acc t upd with ⟨_, heq⟩ | ⟨hnin, heq⟩
  · rw [heq]; exact hnd
  · rw [heq]
    refine List.nodup_append.mpr ⟨hnd, List.nodup_singleton t, ?_⟩
    intro x hx hx1
    rcases List.mem_singleton.mp hx1 with rfl
    exact hnin hx

theorem mem_entry_eq_lookup (acc : List (String × TeamStats))
    (hnd : (acc.map Prod.fst).Nodup) (e : String × TeamStats) (he : e ∈ acc) :
    e.2 = lookupStats acc e.1 := by
  induction acc with
  | nil => cases he
  | cons p rest ih =>
    rcases List.nodup_cons.mp hnd with ⟨hp, hrest⟩
    rcases List.mem_cons.mp he with rfl | he'
    · simp [lookupStats]
    · have hne : ¬ p.1 = e.1 := by
        intro hh
        exact hp (hh ▸ List.mem_map_of_mem Prod.fst he')
      simp [lookupStats, hne, ih hrest he']

theorem sumBy_bump (acc : List (String × TeamStats)) (t : String)
    (upd : TeamStats → TeamStats) (fld : TeamStats → Int) (d : Int)
    (hzero : fld zeroStats = 0) (hupd : ∀ s, fld (upd s) = fld s + d) :
    sumBy (bump acc t upd) fld = sumBy acc fld + d := by
  induction acc with
  | nil => simp [bump, sumBy, hupd, hzero]
  | cons p rest ih =>
    by_cases hpt : p.1 = t
    · simp [bump, sumBy, hpt, hupd]
      ring
    · simp only [sumBy] at ih
      simp [bump, sumBy, hpt]
      omega

theorem sumBy_step_w (acc : List (String × TeamStats)) (g : GameRow) :
    sumBy (stepGame acc g) (fun s => s.w) = sumBy acc (fun s => s.w) + 1 := by
  simp only [stepGame]
  split
  · rw [sumBy_bump _ _ _ _ 0 rfl (fun s => by simp),
      sumBy_bump _ _ _ _ 0 rfl (fun s => by simp),
      sumBy_bump _ _ _ _ 0 rfl (fun s => by simp),
      sumBy_bump _ _ _ _ 1 rfl (fun s => by simp),
      sumBy_bump _ _ _ _ 0 rfl (fun s => by simp),
      sumBy_bump _ _ _ _ 0 rfl (fun s => by simp),
      sumBy_bump _ _ _ _ 0 rfl (fun s => by simp),
      sumBy_bump _ _ _ _ 0 rfl (fun s => by simp),
      sumBy_bump _ _ _ _ 0 rfl (fun s => by simp),
      sumBy_bump _ _ _ _ 0 rfl (fun s => by simp)]
    ring
  · rw [sumBy_bump _ _ _ _ 0 rfl (fun s => by simp),
      sumBy_bump _ _ _ _ 0 rfl (fun s => by simp),
      sumBy_bump _ _ _ _ 1 rfl (fun s => by simp),
      sumBy_bump _ _ _ _ 0 rfl (fun s => by simp),
      sumBy_bump _ _ _ _ 0 rfl (fun s => by simp),
      sumBy_bump _ _ _ _ 0 rfl (fun s => by simp),
      sumBy_bump _ _ _ _ 0 rfl (fun s => by simp),
      sumBy_bump _ _ _ _ 0 rfl (fun s => by simp),
      sumBy_bump _ _ _ _ 0 rfl (fun s => by simp),
      sumBy_bump _ _ _ _ 0 rfl (fun s => by simp)]
    ring

theorem sumBy_step_l (acc : List (String × TeamStats)) (g : GameRow) :
    sumBy (stepGame acc g) (fun s => s.l) = sumBy acc (fun s => s.l) + 1 := by
  simp only [stepGame]
  split
  · rw [sumBy_bump _ _ _ _ 0 rfl (fun s => by simp),
      sumBy_bump _ _ _ _ 0 rfl (fun s => by simp),
      sumBy_bump _ _ _ _ 1 rfl (fun s => by simp),
      sumBy_bump _ _ _ _ 0 rfl (fun s => by simp),
      sumBy_bump _ _ _ _ 0 rfl (fun s => by simp),
      sumBy_bump _ _ _ _ 0 rfl (fun s => by simp),
      sumBy_bump _ _ _ _ 0 rfl (fun s => by simp),
      sumBy_bump _ _ _ _ 0 rfl (fun s => by simp),
      sumBy_bump _ _ _ _ 0 rfl (fun s => by simp),
      sumBy_bump _ _ _ _ 0 rfl (fun s => by simp)]
    ring
  · rw [sumBy_bump _ _ _ _ 0 rfl (fun s => by simp),
      sumBy_bump _ _ _ _ 0 rfl (fun s => by simp),
      sumBy_bump _ _ _ _ 0 rfl (fun s => by simp),
      sumBy_bump _ _ _ _ 1 rfl (fun s => by simp),
      sumBy_bump _ _ _ _ 0 rfl (fun s => by simp),
      sumBy_bump _ _ _ _ 0 rfl (fun s => by simp),
      sumBy_bump _ _ _ _ 0 rfl (fun s => by simp),
      sumBy_bump _ _ _ _ 0 rfl (fun s => by simp),
      sumBy_bump _ _ _ _ 0 rfl (fun s => by simp),
      sumBy_bump _ _ _ _ 0 rfl (fun s => by simp)]
    ring

theorem nodup_step (acc : List (String × TeamStats)) (g : GameRow)
    (hnd : (acc.map Prod.fst).Nodup) :
    ((stepGame acc g).map Prod.fst).Nodup := by
  simp only [stepGame]
  split <;> (repeat apply nodup_bump) <;> exact hnd

theorem lookup_step_invariant (acc : List (String × TeamStats)) (g : GameRow)
    (hP : ∀ t, (lookupStats acc t).points
          = 2 * (lookupStats acc t).w + (lookupStats acc t).l
        ∧ (lookupStats acc t).games
          = (lookupStats acc t).w + (lookupStats acc t).l) :
    ∀ t, (lookupStats (stepGame acc g) t).points
          = 2 * (lookupStats (stepGame acc g) t).w + (lookupStats (stepGame acc g) t).l
        ∧ (lookupStats (stepGame acc g) t).games
          = (lookupStats (stepGame acc g) t).w + (lookupStats (stepGame acc g) t).l := by
  intro t
  have h := hP t
  simp only [stepGame]
  split_ifs with hsc
  all_goals simp only [lookup_bump]
  all_goals split_ifs <;> (try simp) <;> omega

theorem foldl_nodup (df : List GameRow) :
    ∀ acc, (acc.map Prod.fst).Nodup →
      ((df.foldl stepGame acc).map Prod.fst).Nodup := by
  induction df with
  | nil => intro acc h; exact h
  | cons g gs ih =>
    intro acc h
    exact ih _ (nodup_step acc g h)

theorem foldl_invariant (df : List GameRow) :
    ∀ acc, (∀ t, (lookupStats acc t).points
          = 2 * (lookupStats acc t).w + (lookupStats acc t).l
        ∧ (lookupStats acc t).games
          = (lookupStats acc t).w + (lookupStats acc t).l) →
      ∀ t, (lookupStats (df.foldl stepGame acc) t).points
          = 2 * (lookupStats (df.foldl stepGame acc) t).w
              + (lookupStats (df.foldl stepGame acc) t).l
        ∧ (lookupStats (df.foldl stepGame acc) t).games
          = (lookupStats (df.foldl stepGame acc) t).w
              + (lookupStats (df.foldl stepGame acc) t).l := by
  induction df with
  | nil => intro acc h; exact h
  | cons g gs ih =>
    intro acc h
    exact ih _ (lookup_step_invariant acc g h)

theorem foldl_sum_w (df : List GameRow) :
    ∀ acc, sumBy (df.foldl stepGame acc) (fun s => s.w)
      = sumBy acc (fun s => s.w) + (df.length : Int) := by
  induction df with
  | nil => intro acc; simp
  | cons g gs ih =>
    intro acc
    simp only [List.foldl_cons, List.length_cons]
    rw [ih (stepGame acc g), sumBy_step_w]
    push_cast
    ring

theorem foldl_sum_l (df : List GameRow) :
    ∀ acc, sumBy (df.foldl stepGame acc) (fun s => s.l)
      = sumBy acc (fun s => s.l) + (df.length : Int) := by
  induction df with
  | nil => intro acc; simp
  | cons g gs ih =>
    intro acc
    simp only [List.foldl_cons, List.length_cons]
    rw [ih (stepGame acc g), sumBy_step_l]
    push_cast
    ring

theorem standings_ok_shape (df : List GameRow) (rows : List StandingRow)
    (hok : calculate_standings df = Except.ok rows) :
    rows = ((df.foldl stepGame []).map mkStandingRow).insertionSort standingsOrder := by
  unfold calculate_standings at hok
  cases h : df.foldl stepGame [] with
  | nil => rw [h] at hok; cases hok
  | cons e es =>
    rw [h] at hok
    simpa using hok.symm

theorem standings_row_of_mem (df : List GameRow) (rows : List StandingRow)
    (hok : calculate_standings df = Except.ok rows) (r : StandingRow)
    (hr : r ∈ rows) :
    ∃ e ∈ df.foldl stepGame [], r = mkStandingRow e := by
  rw [standings_ok_shape df rows hok] at hr
  have hr2 : r ∈ (df.foldl stepGame []).map mkStandingRow :=
    (List.perm_insertionSort standingsOrder _).mem_iff.mp hr
  rcases List.mem_map.mp hr2 with ⟨e, he, heq⟩
  exact ⟨e, he, heq.symm⟩

/-! ## Helper lemmas about the event replay -/

theorem stepEvent_tie (s : EvState) (e : Option RawEvent) :
    (stepEvent s e).tie_count
      = s.tie_count + (if advOf e = some 0 then 1 else 0) := by
  cases e with
  | none => simp [stepEvent, advOf]
  | some ev =>
    cases hadv : ev.eventAdvantage with
    | none => simp [stepEvent, advOf, hadv]
    | some a =>
      simp only [stepEvent, advOf, hadv, Option.some.injEq]
      split_ifs <;> simp_all

theorem foldl_tie (events : List (Option RawEvent)) :
    ∀ s : EvState, (events.foldl stepEvent s).tie_count
      = s.tie_count + events.countP (fun e => advOf e == some 0) := by
  induction events with
  | nil => intro s; simp
  | cons e es ih =>
    intro s
    simp only [List.foldl_cons, List.countP_cons]
    rw [ih, stepEvent_tie]
    by_cases h : advOf e = some 0 <;> simp [h]
    omega


theorem stepEvent_lead (s : EvState) (e : Option RawEvent) :
    (stepEvent s e).lead_changes = s.lead_changes +
      (if (leaderOf e).isSome ∧ s.previous_leader.isSome ∧ leaderOf e ≠ s.previous_leader
       then 1 else 0) := by
  cases e with
  | none => simp [stepEvent, leaderOf, advOf]
  | some ev =>
    cases hadv : ev.eventAdvantage with
    | none => simp [stepEvent, leaderOf, advOf, hadv]
    | some a =>
      simp only [stepEvent, leaderOf, advOf, hadv]
      split_ifs <;> simp_all [Option.isSome_iff_ne_none]

theorem stepEvent_prev (s : EvState) (e : Option RawEvent) :
    (stepEvent s e).previous_leader =
      if (leaderOf e).isSome then leaderOf e else s.previous_leader := by
  cases e with
  | none => simp [stepEvent, leaderOf, advOf]
  | some ev =>
    cases hadv : ev.eventAdvantage with
    | none => simp [stepEvent, leaderOf, advOf, hadv]
    | some a =>
      simp only [stepEvent, leaderOf, advOf, hadv]
      split_ifs <;> simp_all [Option.isSome_iff_ne_none]

/-! ## Claim theorems -/

/-- C1 (counterexample): the claim says every core query function returns an
empty result on an empty dataset and never raises; but `calculate_standings`
on the empty dataset builds an empty standings dict, and the source's
`standings_df['F'] - standings_df['A']` on the resulting column-less frame
raises a `KeyError` (modelled as `Except.error`), so the result is an error,
not an empty table. -/
theorem calculate_standings_empty_raises :
    calculate_standings ([] : List GameRow) = Except.error "KeyError" := rfl

/-- C1 (amended): the aggregations that guard the empty dataset
(`extract_all_player_stats`, `analyze_game_events`, `extract_referee_stats`,
`get_top_scorers`, `get_biggest_wins`, `get_consistent_scorers`) and the
column-total `get_highest_scoring_games` on a zero-row dataset all return an
empty result; `calculate_standings`, however, raises a `KeyError` on the
empty dataset instead of returning an empty table. -/
theorem empty_dataset_results :
    ∀ (n : ℕ) (sq : ℚ → ℚ),
      extract_all_player_stats [] = ([] : List PlayerFact)
      ∧ analyze_game_events [] = ([] : List GameAnalysis)
      ∧ extract_referee_stats [] = ([] : List RefereeGameFact)
      ∧ get_top_scorers [] n = ([] : List ScorerRow)
      ∧ get_biggest_wins [] n = ([] : List GameAnalysis)
      ∧ get_highest_scoring_games [] n = ([] : List HighScoreRow)
      ∧ get_consistent_scorers sq [] 5 = ([] : List ConsistencyRow)
      ∧ calculate_standings [] = Except.error "KeyError" := by
  intro n sq
  refine ⟨rfl, rfl, rfl, ?_, ?_, ?_, ?_, rfl⟩
  · simp [get_top_scorers, scorerRanking, extract_all_player_stats, groupKeys]
  · simp [get_biggest_wins, biggestWinsRanking, analyze_game_events]
  · simp [get_highest_scoring_games]
  · simp [get_consistent_scorers, extract_all_player_stats, groupKeys]

/-- C4: replaying a game's event list in order, the tie count is incremented
exactly on events whose advantage value is exactly zero; a lead change is
counted exactly when the event's leader (home for positive, away for
negative advantage) is non-none, the previous leader is non-none, and the
two differ; the previous leader is updated exactly by events with a
non-none leader (so a tie or a no-advantage event does not reset it); and an
event without an advantage value leaves the replay state unchanged. -/
theorem event_replay_rules :
    (∀ g : GameRow, (analyzeGame g).TieScores
        = ((g.GameEvents.decodeList.getD []).foldl stepEvent initEventState).tie_count)
    ∧ (∀ events : List (Option RawEvent),
        (events.foldl stepEvent initEventState).tie_count
          = events.countP (fun e => advOf e == some 0))
    ∧ (∀ (s : EvState) (e : Option RawEvent),
        (stepEvent s e).lead_changes = s.lead_changes +
          (if (leaderOf e).isSome ∧ s.previous_leader.isSome ∧ leaderOf e ≠ s.previous_leader
           then 1 else 0))
    ∧ (∀ (s : EvState) (e : Option RawEvent),
        (stepEvent s e).previous_leader =
          if (leaderOf e).isSome then leaderOf e else s.previous_leader)
    ∧ (∀ (s : EvState) (act : Option String),
        stepEvent s (some (RawEvent.mk none act)) = s) := by
  refine ⟨fun g => rfl, ?_, stepEvent_lead, stepEvent_prev, fun s act => rfl⟩
  intro events
  rw [foldl_tie]
  simp [initEventState]

/-- C5: for every game (with its recorded, unequal final scores), the
analysis reports `WinMargin` as the absolute difference of the final scores
and `Winner` as the team whose final score is strictly larger. -/
theorem win_margin_and_winner :
    (∀ data : List GameRow, analyze_game_events data = data.map analyzeGame)
    ∧ (∀ g : GameRow, (analyzeGame g).WinMargin
        = |g.FinalHomeScore - g.FinalAwayScore|)
    ∧ (∀ g : GameRow, g.FinalHomeScore > g.FinalAwayScore →
        (analyzeGame g).Winner = g.HomeTeamName)
    ∧ (∀ g : GameRow, g.FinalAwayScore > g.FinalHomeScore →
        (analyzeGame g).Winner = g.AwayTeamName) := by
  refine ⟨fun data => rfl, fun g => rfl, ?_, ?_⟩
  · intro g h
    show (if g.FinalHomeScore > g.FinalAwayScore then g.HomeTeamName else g.AwayTeamName)
        = g.HomeTeamName
    rw [if_pos h]
  · intro g h
    show (if g.FinalHomeScore > g.FinalAwayScore then g.HomeTeamName else g.AwayTeamName)
        = g.AwayTeamName
    rw [if_neg (by omega)]

/-- C5 witness: on the concrete sample games, the home side wins the 60-55
game and the away side wins the 40-70 game, with the 60-55 margin equal to
the absolute score difference. -/
theorem win_margin_and_winner_witness :
    (analyzeGame gHome).WinMargin = |gHome.FinalHomeScore - gHome.FinalAwayScore|
    ∧ (analyzeGame gHome).Winner = gHome.HomeTeamName
    ∧ (analyzeGame gAway).Winner = gAway.AwayTeamName :=
  ⟨win_margin_and_winner.2.1 gHome,
   win_margin_and_winner.2.2.1 gHome (by decide),
   win_margin_and_winner.2.2.2 gAway (by decide)⟩

/-- C6: a game whose `Teams` roster fails to decode contributes zero fact
rows, so the extraction equals the extraction over only the games whose
rosters decode to a list; in particular a roster column holding an
unparsable string yields no rows for that game.  The extraction is a total
function — no exception reaches the caller. -/
theorem player_stats_skip_malformed_rosters :
    (∀ data : List GameRow,
      extract_all_player_stats data
        = extract_all_player_stats (data.filter (fun g => (g.Teams.decodeList).isSome)))
    ∧ (∀ (gid dt ht aw dv : String) (fh fa : Int)
        (ev : NestedField (Option RawEvent)) (rf : NestedField (Option String)),
        gamePlayerRecords
          (GameRow.mk gid dt ht aw dv fh fa NestedField.strBad ev rf) = []) := by
  constructor
  · intro data
    induction data with
    | nil => rfl
    | cons g gs ih =>
      by_cases h : (g.Teams.decodeList).isSome
      · simp only [extract_all_player_stats, List.flatMap_cons, List.filter_cons, h,
          if_pos] at ih ⊢
        rw [ih]
      · have hnone : g.Teams.decodeList = none := Option.not_isSome_iff_eq_none.mp h
        simp only [extract_all_player_stats, List.flatMap_cons, List.filter_cons, h,
          Bool.false_eq_true, if_neg] at ih ⊢
        rw [ih]
        simp [gamePlayerRecords, hnone]
  · intro gid dt ht aw dv fh fa ev rf
    rfl

/-- C7: a top-N query returns at most N rows and is a prefix of the full
sorted ranking the same query produces without truncation, both for the
player scoring ranking and for the biggest-wins ranking. -/
theorem top_n_truncation_bounds :
    ∀ (data : List GameRow) (n : ℕ),
      (get_top_scorers data n).length ≤ n
      ∧ get_top_scorers data n <+: scorerRanking data
      ∧ (get_biggest_wins data n).length ≤ n
      ∧ get_biggest_wins data n <+: biggestWinsRanking data := by
  intro data n
  refine ⟨?_, ⟨(scorerRanking data).drop n, List.take_append_drop n _⟩,
    ?_, ⟨(biggestWinsRanking data).drop n, List.take_append_drop n _⟩⟩
  · rw [get_top_scorers, List.length_take]
    exact min_le_left _ _
  · rw [get_biggest_wins, List.length_take]
    exact min_le_left _ _

/-- C2: in the standings of completed games with no equal final scores,
every output row satisfies `Points = 2*W + 1*L`, the rows are sorted by
league points then point differential, both descending, and each processed
game awards exactly 2 league points and a win to the winning team and 1
league point and a loss to the losing team. -/
theorem standings_points_rule_and_order :
    (∀ (df : List GameRow) (rows : List StandingRow),
        (∀ g ∈ df, g.FinalHomeScore ≠ g.FinalAwayScore) →
        calculate_standings df = Except.ok rows →
        (∀ r ∈ rows, r.Points = 2 * r.W + r.L) ∧ List.Sorted standingsOrder rows)
    ∧ (∀ (acc : List (String × TeamStats)) (g : GameRow),
        g.FinalHomeScore > g.FinalAwayScore → g.HomeTeamName ≠ g.AwayTeamName →
        (lookupStats (stepGame acc g) g.HomeTeamName).points
          = (lookupStats acc g.HomeTeamName).points + 2
        ∧ (lookupStats (stepGame acc g) g.HomeTeamName).w
          = (lookupStats acc g.HomeTeamName).w + 1
        ∧ (lookupStats (stepGame acc g) g.AwayTeamName).points
          = (lookupStats acc g.AwayTeamName).points + 1
        ∧ (lookupStats (stepGame acc g) g.AwayTeamName).l
          = (lookupStats acc g.AwayTeamName).l + 1)
    ∧ (∀ (acc : List (String × TeamStats)) (g : GameRow),
        g.FinalAwayScore > g.FinalHomeScore → g.HomeTeamName ≠ g.AwayTeamName →
        (lookupStats (stepGame acc g) g.AwayTeamName).points
          = (lookupStats acc g.AwayTeamName).points + 2
        ∧ (lookupStats (stepGame acc g) g.AwayTeamName).w
          = (lookupStats acc g.AwayTeamName).w + 1
        ∧ (lookupStats (stepGame acc g) g.HomeTeamName).points
          = (lookupStats acc g.HomeTeamName).points + 1
        ∧ (lookupStats (stepGame acc g) g.HomeTeamName).l
          = (lookupStats acc g.HomeTeamName).l + 1) := by
  refine ⟨?_, ?_, ?_⟩
  · intro df rows hne hok
    constructor
    · intro r hr
      rcases standings_row_of_mem df rows hok r hr with ⟨e, he, rfl⟩
      have hnd := foldl_nodup df [] (by simp)
      have hinv := foldl_invariant df []
        (by intro t; simp [lookupStats, zeroStats])
      have he2 := mem_entry_eq_lookup _ hnd e he
      have hP := hinv e.1
      rw [← he2] at hP
      simpa [mkStandingRow] using hP.1
    · rw [standings_ok_shape df rows hok]
      exact List.sorted_insertionSort standingsOrder _
  · intro acc g hgt hnehome
    simp only [stepGame]
    rw [if_pos hgt]
    simp only [lookup_bump]
    refine ⟨?_, ?_, ?_, ?_⟩ <;> simp [hnehome, Ne.symm hnehome]
  · intro acc g hlt hnehome
    simp only [stepGame]
    rw [if_neg (by omega : ¬ g.FinalHomeScore > g.FinalAwayScore)]
    simp only [lookup_bump]
    refine ⟨?_, ?_, ?_, ?_⟩ <;> simp [hnehome, Ne.symm hnehome]

/-- C2 witness: on the two sample games the theorem applies; the first
output row satisfies the points rule, and one home-win step awards the home
team 2 points. -/
theorem standings_points_rule_and_order_witness :
    (StandingRow.mk "A" 2 1 1 125 100 3 25).Points
      = 2 * (StandingRow.mk "A" 2 1 1 125 100 3 25).W
        + (StandingRow.mk "A" 2 1 1 125 100 3 25).L
    ∧ (lookupStats (stepGame [] gHome) gHome.HomeTeamName).points
      = (lookupStats [] gHome.HomeTeamName).points + 2 :=
  ⟨(standings_points_rule_and_order.1 [gHome, gAway] exStandings (by decide) rfl).1
      (StandingRow.mk "A" 2 1 1 125 100 3 25) (by decide),
   (standings_points_rule_and_order.2.1 [] gHome (by decide) (by decide)).1⟩

/-- C3: for completed games with no equal final scores, the wins across all
standings rows sum to the number of games, so do the losses, and every row
has `Games = W + L`. -/
theorem standings_win_loss_totals :
    ∀ (df : List GameRow) (rows : List StandingRow),
      (∀ g ∈ df, g.FinalHomeScore ≠ g.FinalAwayScore) →
      calculate_standings df = Except.ok rows →
      (rows.map (fun r => r.W)).sum = (df.length : Int)
      ∧ (rows.map (fun r => r.L)).sum = (df.length : Int)
      ∧ ∀ r ∈ rows, r.Games = r.W + r.L := by
  intro df rows hne hok
  have hshape := standings_ok_shape df rows hok
  have hpermW : List.Perm (rows.map (fun r => r.W))
      (((df.foldl stepGame []).map mkStandingRow).map (fun r => r.W)) := by
    rw [hshape]
    exact (List.perm_insertionSort standingsOrder _).map _
  have hpermL : List.Perm (rows.map (fun r => r.L))
      (((df.foldl stepGame []).map mkStandingRow).map (fun r => r.L)) := by
    rw [hshape]
    exact (List.perm_insertionSort standingsOrder _).map _
  refine ⟨?_, ?_, ?_⟩
  · rw [hpermW.sum_eq, List.map_map]
    have : (fun r => StandingRow.W r) ∘ mkStandingRow
        = fun p : String × TeamStats => p.2.w := rfl
    rw [this]
    have := foldl_sum_w df []
    simpa [sumBy] using this
  · rw [hpermL.sum_eq, List.map_map]
    have : (fun r => StandingRow.L r) ∘ mkStandingRow
        = fun p : String × TeamStats => p.2.l := rfl
    rw [this]
    have := foldl_sum_l df []
    simpa [sumBy] using this
  · intro r hr
    rcases standings_row_of_mem df rows hok r hr with ⟨e, he, rfl⟩
    have hnd := foldl_nodup df [] (by simp)
    have hinv := foldl_invariant df []
      (by intro t; simp [lookupStats, zeroStats])
    have he2 := mem_entry_eq_lookup _ hnd e he
    have hP := hinv e.1
    rw [← he2] at hP
    simpa [mkStandingRow] using hP.2

/-- C3 witness: on the two sample games, wins and losses across the
standings rows each sum to 2, and the first row has `Games = W + L`. -/
theorem standings_win_loss_totals_witness :
    (exStandings.map (fun r => r.W)).sum = (2 : Int)
    ∧ (exStandings.map (fun r => r.L)).sum = (2 : Int)
    ∧ (StandingRow.mk "A" 2 1 1 125 100 3 25).Games
      = (StandingRow.mk "A" 2 1 1 125 100 3 25).W
        + (StandingRow.mk "A" 2 1 1 125 100 3 25).L :=
  ⟨(standings_win_loss_totals [gHome, gAway] exStandings (by decide) rfl).1,
   (standings_win_loss_totals [gHome, gAway] exStandings (by decide) rfl).2.1,
   (standings_win_loss_totals [gHome, gAway] exStandings (by decide) rfl).2.2
     (StandingRow.mk "A" 2 1 1 125 100 3 25) (by decide)⟩

/-- C9: every referee record extracted from a game carries the game-wide
foul count, so any two referees listed for the same game are recorded with
the same fouls-per-game value — the fouls are shared (by construction)
across all referees present in that game. -/
theorem referee_shared_foul_count :
    (∀ data : List GameRow, extract_referee_stats data = data.flatMap refGameRecords)
    ∧ (∀ (g : GameRow) (r : RefereeGameFact), r ∈ refGameRecords g →
        r.FoulsCalledInGame = refFoulCount g.GameEvents)
    ∧ (∀ (g : GameRow) (r1 r2 : RefereeGameFact),
        r1 ∈ refGameRecords g → r2 ∈ refGameRecords g →
        r1.FoulsCalledInGame = r2.FoulsCalledInGame) := by
  have h2 : ∀ (g : GameRow) (r : RefereeGameFact), r ∈ refGameRecords g →
      r.FoulsCalledInGame = refFoulCount g.GameEvents := by
    intro g r hr
    unfold refGameRecords at hr
    cases hdec : g.Referres.decodeList with
    | none => rw [hdec] at hr; cases hr
    | some refs =>
      rw [hdec] at hr
      rcases List.mem_filterMap.mp hr with ⟨name?, _, heq⟩
      cases name? with
      | none => cases heq
      | some name =>
        have h := Option.some.inj heq
        rw [← h]
  exact ⟨fun data => rfl, h2, fun g r1 r2 h1 hb => (h2 g r1 h1).trans (h2 g r2 hb).symm⟩

/-- C9 witness: the sample game lists two referees, and both their records
carry the same foul count. -/
theorem referee_shared_foul_count_witness :
    (RefereeGameFact.mk "R1" "G4" 1 1).FoulsCalledInGame
      = (RefereeGameFact.mk "R2" "G4" 1 1).FoulsCalledInGame :=
  referee_shared_foul_count.2.2 gEvents
    (RefereeGameFact.mk "R1" "G4" 1 1) (RefereeGameFact.mk "R2" "G4" 1 1)
    (by decide) (by decide)

/-- C10: an extracted player record has `StartingFive = true` exactly when
the raw `'Starting Five'` value is the exact string `'true'`: a native
boolean (even `True`), any other string (such as `'True'`), or an absent
key all yield `false`; and every roster player reached by the extraction
walk contributes its `playerRecord` to `extract_all_player_stats`. -/
theorem starting_five_exact_string_match :
    (∀ v : Option SFValue, startingFiveOfField v = true ↔ v = some (SFValue.str "true"))
    ∧ (∀ (gid gdate tname : String) (p : RawPlayer),
        (playerRecord gid gdate tname p).StartingFive = true
          ↔ p.startingFive = some (SFValue.str "true"))
    ∧ (∀ (data : List GameRow) (g : GameRow) (teams : List (Option RawTeam))
        (t : RawTeam) (ps : List (Option RawPlayer)) (p : RawPlayer),
        g ∈ data → g.Teams.decodeList = some teams → some t ∈ teams →
        t.players = some ps → some p ∈ ps →
        playerRecord g.GameId g.DateTime (teamDisplayName t) p
          ∈ extract_all_player_stats data) := by
  have h1 : ∀ v : Option SFValue,
      startingFiveOfField v = true ↔ v = some (SFValue.str "true") := by
    intro v
    rcases v with _ | sf
    · simp [startingFiveOfField]
    · rcases sf with s | b
      · simp [startingFiveOfField]
      · simp [startingFiveOfField]
  refine ⟨h1, ?_, ?_⟩
  · intro gid gdate tname p
    have hfield : (playerRecord gid gdate tname p).StartingFive
        = startingFiveOfField p.startingFive := rfl
    rw [hfield]
    exact h1 _
  · intro data g teams t ps p hg hdec hteam hps hp
    unfold extract_all_player_stats
    refine List.mem_flatMap.mpr ⟨g, hg, ?_⟩
    unfold gamePlayerRecords
    rw [hdec]
    refine List.mem_flatMap.mpr ⟨some t, hteam, ?_⟩
    have hrec : teamRecords g.GameId g.DateTime (some t)
        = ps.filterMap
            (fun p? => p?.map (playerRecord g.GameId g.DateTime (teamDisplayName t))) := by
      rcases t with ⟨tn, tns, tps⟩
      cases hps
      rfl
    rw [hrec]
    exact List.mem_filterMap.mpr ⟨some p, hp, rfl⟩

/-- C10 witness: the sample starter whose raw value is the string `'true'`
is flagged, and its record is produced by the extraction on the sample
dataset. -/
theorem starting_five_exact_string_match_witness :
    startingFiveOfField (some (SFValue.str "true")) = true
    ∧ (playerRecord gSolo.GameId gSolo.DateTime (teamDisplayName soloTeam)
        soloPlayer).StartingFive = true
    ∧ playerRecord gSolo.GameId gSolo.DateTime (teamDisplayName soloTeam) soloPlayer
        ∈ extract_all_player_stats [gSolo] :=
  ⟨(starting_five_exact_string_match.1 (some (SFValue.str "true"))).mpr rfl,
   (starting_five_exact_string_match.2.1 gSolo.GameId gSolo.DateTime
      (teamDisplayName soloTeam) soloPlayer).mpr rfl,
   starting_five_exact_string_match.2.2 [gSolo] gSolo [some soloTeam] soloTeam
     [some soloPlayer] soloPlayer (by decide) rfl (by decide) rfl (by decide)⟩

/-- C8 (counterexample): the claim says a player with exactly one game has a
defined, non-infinite consistency score; but pandas `Series.std()` (default
`ddof=1`) of a single-value series is `NaN`, so the score
`mean / (std + 0.1)` is `NaN` — modelled as `none`, not a defined value. -/
theorem single_game_consistency_is_nan :
    consistencyScore (fun _ => 0) [(10 : ℚ)] = none := rfl

/-- C8 (amended): a player with exactly one extracted game row is excluded
from the consistency ranking (inclusion requires at least 5 games), and a
single-value series has a `NaN` (undefined) consistency score, because the
sample standard deviation of one observation is `NaN`; the `+0.1`
stabiliser instead guards the zero-variance case with enough games: for any
series of at least 5 equal values the score is the defined, finite value
`mean / (0 + 0.1)`. -/
theorem consistency_ranking_amended :
    (∀ (sq : ℚ → ℚ) (data : List GameRow) (p t : String),
        (groupRows (extract_all_player_stats data) (p, t)).length = 1 →
        ¬ (p, t) ∈ (get_consistent_scorers sq data 5).map (fun r => (r.PlayerName, r.Team)))
    ∧ (∀ (sq : ℚ → ℚ) (x : ℚ), consistencyScore sq [x] = none)
    ∧ (∀ (sq : ℚ → ℚ), sq 0 = 0 → ∀ (a : ℚ) (n : ℕ),
        consistencyScore sq (List.replicate (n + 5) a)
          = some (round2 (a / (1 / 10)))) := by
  refine ⟨?_, fun sq x => rfl, ?_⟩
  · intro sq data p t hlen hmem
    rcases List.mem_map.mp hmem with ⟨row, hrow, hkey⟩
    simp only [get_consistent_scorers] at hrow
    have hrow2 := (List.perm_insertionSort consOrder _).mem_iff.mp
      (List.mem_of_mem_take hrow)
    rcases List.mem_filterMap.mp hrow2 with ⟨k, _, hsome⟩
    by_cases hge : 5 ≤ (groupRows (extract_all_player_stats data) k).length
    · rw [if_pos hge] at hsome
      have hrowk := Option.some.inj hsome
      have hkeq : k = (p, t) := by
        rw [← hrowk] at hkey
        simpa [mkConsistencyRow, Prod.ext_iff] using hkey
      rw [hkeq] at hge
      omega
    · rw [if_neg hge] at hsome
      cases hsome
  · intro sq hsq a n
    have hlen : (List.replicate (n + 5) a).length = n + 5 :=
      List.length_replicate (n + 5) a
    have hne : ((n + 5 : ℕ) : ℚ) ≠ 0 := Nat.cast_ne_zero.mpr (by omega)
    have hmean : seriesMean (List.replicate (n + 5) a) = a := by
      unfold seriesMean
      rw [List.sum_replicate, hlen, nsmul_eq_mul]
      exact mul_div_cancel_left₀ a hne
    have hvar : sampleVariance (List.replicate (n + 5) a) = 0 := by
      simp [sampleVariance, hmean, List.map_replicate, List.sum_replicate]
    simp only [consistencyScore, pandasStd, hlen]
    rw [if_neg (by omega : ¬ n + 5 ≤ 1)]
    simp only [Option.map_some']
    rw [hmean, hvar, hsq, zero_add]

/-- C8 witness: on the sample dataset the single-game player is excluded
from the ranking, and a constant 5-game series of 3 points has the defined
score given by the stabilised denominator. -/
theorem consistency_ranking_amended_witness :
    ¬ ("Solo", "T") ∈ (get_consistent_scorers (fun _ => 0) [gSolo] 5).map
        (fun r => (r.PlayerName, r.Team))
    ∧ consistencyScore (fun _ => 0) [(10 : ℚ)] = none
    ∧ consistencyScore (fun _ => 0) (List.replicate (0 + 5) (3 : ℚ))
        = some (round2 (3 / (1 / 10))) :=
  ⟨consistency_ranking_amended.1 (fun _ => 0) [gSolo] "Solo" "T" (by decide),
   consistency_ranking_amended.2.1 (fun _ => 0) 10,
   consistency_ranking_amended.2.2 (fun _ => 0) rfl 3 0⟩
